import Mathlib

/-!
Shallow embedding of `paddlets/models/common/callbacks/callbacks.py`:
the `Callback` base class, the `CallbackContainer` dispatcher, the
`EarlyStopping` monitor and the `History` recorder, together with
theorems about the early-stopping decision procedure, the dispatch
protocol and the running-loss bookkeeping.

Metric values are modelled as rationals; the numpy infinities used to
initialise `EarlyStopping._best_loss` are modelled by an explicit
extended-value type `EFloat`.  A log record (`logs` dict) is an
association list from string keys to rational values.  Python
exceptions (`KeyError`, `ZeroDivisionError`) are modelled with
`Except`; a `deepcopy` that may fail is modelled by an explicit copy
function returning `Option`.
-/

namespace PaddleTS

/-- Extended metric value: a numpy float that is `-inf`, finite, or `+inf`,
as stored in the `_best_loss` attribute of `EarlyStopping`. -/
inductive EFloat where
  | negInf : EFloat
  | fin : ℚ → EFloat
  | posInf : EFloat
deriving DecidableEq

/-- Negation of an extended value (used for `-loss_change` and for the
initialisation `-np.inf`). -/
def EFloat.neg : EFloat → EFloat
  | .negInf => .posInf
  | .fin q => .fin (-q)
  | .posInf => .negInf

/-- Subtraction `c - b` of an extended value `b` from a finite value `c`,
modelling `current_loss - self._best_loss`. -/
def EFloat.subQ (c : ℚ) : EFloat → EFloat
  | .negInf => .posInf
  | .fin q => .fin (c - q)
  | .posInf => .negInf

/-- Comparison `x > t` of an extended value `x` against a finite tolerance
`t`, modelling `loss_change > self._tol`. -/
def EFloat.gtQ : EFloat → ℚ → Bool
  | .negInf, _ => false
  | .fin q, t => decide (t < q)
  | .posInf, _ => true

/-- A log record: the `logs` dict passed to every hook, modelled as an
association list from string keys to rational values. -/
def Logs : Type := List (String × ℚ)

/-- Dictionary lookup, modelling `logs.get(key)` (first matching key). -/
def lookupLog : Logs → String → Option ℚ
  | [], _ => none
  | (k, v) :: rest, key => if k = key then some v else lookupLog rest key

variable {W : Type}

/-- State of the `EarlyStopping` callback; `W` is the type of network
parameter snapshots (`state_dict` values). -/
structure EarlyStopping (W : Type) where
  early_stopping_metric : String
  is_maximize : Bool
  tol : ℚ
  patience : ℤ
  best_epoch : ℤ
  stopped_epoch : ℤ
  best_weights : Option W
  best_loss : EFloat
  wait : ℤ

/-- The trainer fields that the callbacks read and write: the live
network parameter state, the stop flag, and the best-epoch/best-cost
fields written back at train end. -/
structure Trainer (W : Type) where
  network : W
  stop_training : Bool
  best_epoch : ℤ
  best_cost : EFloat

/-- `EarlyStopping.__init__`: `_best_loss = np.inf`, negated when
maximizing; all counters start at zero and no snapshot is stored. -/
def EarlyStopping.init (early_stopping_metric : String) (is_maximize : Bool)
    (tol : ℚ) (patience : ℤ) : EarlyStopping W where
  early_stopping_metric := early_stopping_metric
  is_maximize := is_maximize
  tol := tol
  patience := patience
  best_epoch := 0
  stopped_epoch := 0
  best_weights := none
  best_loss := if is_maximize then EFloat.neg EFloat.posInf else EFloat.posInf
  wait := 0

/-- Result of one `EarlyStopping.on_epoch_end` call: whether an exception
propagated (`raised`), and the callback and trainer state afterwards. -/
structure ESResult (W : Type) where
  raised : Bool
  es : EarlyStopping W
  tr : Trainer W

/-- `EarlyStopping.on_epoch_end`, parametrised by the `copy.deepcopy`
operation on the trainer's network state (`none` models a raised
exception during the deep copy).  Mirrors the source line by line:
read the metric from the logs and return if absent; compute
`loss_change = current_loss - best_loss`; test
`max_improved = is_maximize and loss_change > tol`,
`min_improved = (not is_maximize) and (-loss_change > tol)`; on
improvement deep-copy the network state, then assign snapshot, best
loss, best epoch and reset the wait counter; otherwise increment the
wait counter and, when it has reached the patience, set the trainer's
stop flag and record the stopped epoch. -/
def EarlyStopping.on_epoch_endC (copyFn : W → Option W) (es : EarlyStopping W)
    (tr : Trainer W) (epoch : ℤ) (logs : Logs) : ESResult W :=
  match lookupLog logs es.early_stopping_metric with
  | none => ⟨false, es, tr⟩
  | some current_loss =>
    let loss_change := EFloat.subQ current_loss es.best_loss
    let max_improved := es.is_maximize && EFloat.gtQ loss_change es.tol
    let min_improved := (!es.is_maximize) && EFloat.gtQ (EFloat.neg loss_change) es.tol
    if max_improved || min_improved then
      match copyFn tr.network with
      | none => ⟨true, es, tr⟩
      | some w =>
        ⟨false,
          { es with best_weights := some w, best_loss := EFloat.fin current_loss,
                    best_epoch := epoch, wait := 0 }, tr⟩
    else
      let wait := es.wait + 1
      if es.patience ≤ wait then
        ⟨false, { es with wait := wait, stopped_epoch := epoch },
          { tr with stop_training := true }⟩
      else
        ⟨false, { es with wait := wait }, tr⟩

/-- `EarlyStopping.on_epoch_end` with the ordinary (total) deep copy:
in the pure model `copy.deepcopy` of a value is the value itself. -/
def EarlyStopping.on_epoch_end (es : EarlyStopping W) (tr : Trainer W)
    (epoch : ℤ) (logs : Logs) : EarlyStopping W × Trainer W :=
  let r := EarlyStopping.on_epoch_endC (fun w => some w) es tr epoch logs
  (r.es, r.tr)

/-- `EarlyStopping.on_train_end`: write `best_epoch` and `best_loss` back
to the trainer, and restore the stored snapshot into the live network
state whenever one exists (the remainder of the method only logs). -/
def EarlyStopping.on_train_end (es : EarlyStopping W) (tr : Trainer W) : Trainer W :=
  let tr1 := { tr with best_epoch := es.best_epoch, best_cost := es.best_loss }
  match es.best_weights with
  | some w => { tr1 with network := w }
  | none => tr1

/-- A whole sequence of `on_epoch_end` calls, each given an epoch index
and a log record. -/
def EarlyStopping.runCalls (st : EarlyStopping W × Trainer W)
    (calls : List (ℤ × Logs)) : EarlyStopping W × Trainer W :=
  calls.foldl (fun st c => EarlyStopping.on_epoch_end st.1 st.2 c.1 c.2) st

/-- The improvement test of `on_epoch_end` as a Boolean predicate on the
direction, tolerance, current best and candidate value. -/
def improvedB (is_maximize : Bool) (tol : ℚ) (best : EFloat) (v : ℚ) : Bool :=
  (is_maximize && EFloat.gtQ (EFloat.subQ v best) tol) ||
    ((!is_maximize) && EFloat.gtQ (EFloat.neg (EFloat.subQ v best)) tol)

/-- One step of the tolerance-gated best-value rule: a candidate becomes
the new best only if it improves on the current best by strictly more
than the tolerance in the configured direction. -/
def gatedStep (is_maximize : Bool) (tol : ℚ) (best : EFloat) (v : ℚ) : EFloat :=
  if improvedB is_maximize tol best v then EFloat.fin v else best

/-- The tolerance-gated extremum of a value sequence, starting from the
direction-dependent infinity. -/
def gatedBest (is_maximize : Bool) (tol : ℚ) (vs : List ℚ) : EFloat :=
  vs.foldl (gatedStep is_maximize tol)
    (if is_maximize then EFloat.negInf else EFloat.posInf)

/-- Evolution of the wait counter along a list of improvement flags:
reset to zero on an accepted improvement, incremented otherwise. -/
def waitAfter (w : ℤ) (flags : List Bool) : ℤ :=
  flags.foldl (fun acc f => if f then 0 else acc + 1) w

/-- The improvement flags produced along a value sequence by the
tolerance-gated rule, starting from a given best value. -/
def improvedFlags (is_maximize : Bool) (tol : ℚ) : EFloat → List ℚ → List Bool
  | _, [] => []
  | b, v :: vs =>
    improvedB is_maximize tol b v :: improvedFlags is_maximize tol (gatedStep is_maximize tol b v) vs

/-- Number of consecutive calls since the last accepted improvement:
the length of the maximal suffix of the flag list containing no
accepted improvement. -/
def consecSinceImprove (flags : List Bool) : ℕ :=
  (flags.reverse.takeWhile (fun b => !b)).length

/-- A concrete trainer state used by the scenario theorem. -/
def trainer0 : Trainer ℤ where
  network := 0
  stop_training := false
  best_epoch := 0
  best_cost := EFloat.fin 0

/-- Scenario A monitor: minimise the metric named `loss` with
`patience = 2` and `tol = 0`. -/
def esA : EarlyStopping ℤ := EarlyStopping.init "loss" false 0 2

/-- Scenario A metric sequence `[1.0, 1.2, 1.3, 1.25, 1.4]` fed at
epochs 0 to 4. -/
def callsA : List (ℤ × Logs) :=
  [(0, [("loss", 1)]), (1, [("loss", 6/5)]), (2, [("loss", 13/10)]),
   (3, [("loss", 5/4)]), (4, [("loss", 7/5)])]

/-- Scenario B monitor: maximise the metric named `metric` with
`patience = 3` and `tol = 0.01`. -/
def esB : EarlyStopping ℤ := EarlyStopping.init "metric" true (1/100) 3

/-- Scenario B metric sequence `[0.5, 0.505, 0.52, 0.60]` fed at
epochs 0 to 3. -/
def callsB : List (ℤ × Logs) :=
  [(0, [("metric", 1/2)]), (1, [("metric", 101/200)]), (2, [("metric", 13/25)]),
   (3, [("metric", 3/5)])]

/-- Scenario A intermediate state after epoch 0 (first value accepted). -/
def esA1 : EarlyStopping ℤ :=
  { esA with best_weights := some 0, best_loss := EFloat.fin 1 }

/-- Scenario A intermediate state after epoch 1 (no improvement). -/
def esA2 : EarlyStopping ℤ := { esA1 with wait := 1 }

/-- Scenario A intermediate state after epoch 2 (stop triggered). -/
def esA3 : EarlyStopping ℤ := { esA2 with wait := 2, stopped_epoch := 2 }

/-- Scenario A intermediate state after epoch 3. -/
def esA4 : EarlyStopping ℤ := { esA3 with wait := 3, stopped_epoch := 3 }

/-- Scenario A intermediate state after epoch 4. -/
def esA5 : EarlyStopping ℤ := { esA4 with wait := 4, stopped_epoch := 4 }

/-- The trainer once scenario A has triggered the stop. -/
def trA : Trainer ℤ := { trainer0 with stop_training := true }

/-- Scenario B intermediate state after epoch 0 (first value accepted). -/
def esB1 : EarlyStopping ℤ :=
  { esB with best_weights := some 0, best_loss := EFloat.fin (1/2) }

/-- Scenario B intermediate state after epoch 1 (within tolerance). -/
def esB2 : EarlyStopping ℤ := { esB1 with wait := 1 }

/-- Scenario B intermediate state after epoch 2 (accepted improvement). -/
def esB3 : EarlyStopping ℤ :=
  { esB2 with best_loss := EFloat.fin (13/25), best_epoch := 2, wait := 0 }

/-- Scenario B intermediate state after epoch 3 (accepted improvement). -/
def esB4 : EarlyStopping ℤ :=
  { esB3 with best_loss := EFloat.fin (3/5), best_epoch := 3 }

/-- A callback as seen by the dispatcher: the six hook methods, each
acting on a world state of type `ω` (the combined state of the callback
object and the trainer).  The base `Callback` class leaves every hook a
no-op. -/
structure PyCallback (ω : Type) where
  on_epoch_begin : ℤ → Logs → ω → ω := fun _ _ w => w
  on_epoch_end : ℤ → Logs → ω → ω := fun _ _ w => w
  on_batch_begin : ℤ → Logs → ω → ω := fun _ _ w => w
  on_batch_end : ℤ → Logs → ω → ω := fun _ _ w => w
  on_train_begin : Logs → ω → ω := fun _ w => w
  on_train_end : Logs → ω → ω := fun _ w => w

variable {ω : Type}

/-- The base `Callback` class: every hook is inherited as a no-op. -/
def Callback.base : PyCallback ω := {}

/-- The `CallbackContainer`: an ordered list of callbacks. -/
structure CallbackContainer (ω : Type) where
  callbacks : List (PyCallback ω)

/-- `CallbackContainer.append`: append a callback at the end. -/
def CallbackContainer.append (c : CallbackContainer ω) (cb : PyCallback ω) :
    CallbackContainer ω :=
  ⟨c.callbacks ++ [cb]⟩

/-- The defaulting `logs = logs or {}` on entry to every forwarding
method: a missing record, and also a falsy empty record, is replaced by
the empty record. -/
def logsOrEmpty : Option Logs → Logs
  | none => []
  | some l => if l.isEmpty then [] else l

/-- Forwarding method for `on_epoch_begin`: default the record, then
invoke the hook on every callback in list order. -/
def CallbackContainer.on_epoch_begin (c : CallbackContainer ω) (epoch : ℤ)
    (logs : Option Logs) (w : ω) : ω :=
  let l := logsOrEmpty logs
  c.callbacks.foldl (fun w cb => cb.on_epoch_begin epoch l w) w

/-- Forwarding method for `on_epoch_end`. -/
def CallbackContainer.on_epoch_end (c : CallbackContainer ω) (epoch : ℤ)
    (logs : Option Logs) (w : ω) : ω :=
  let l := logsOrEmpty logs
  c.callbacks.foldl (fun w cb => cb.on_epoch_end epoch l w) w

/-- Forwarding method for `on_batch_begin`. -/
def CallbackContainer.on_batch_begin (c : CallbackContainer ω) (batch : ℤ)
    (logs : Option Logs) (w : ω) : ω :=
  let l := logsOrEmpty logs
  c.callbacks.foldl (fun w cb => cb.on_batch_begin batch l w) w

/-- Forwarding method for `on_batch_end`. -/
def CallbackContainer.on_batch_end (c : CallbackContainer ω) (batch : ℤ)
    (logs : Option Logs) (w : ω) : ω :=
  let l := logsOrEmpty logs
  c.callbacks.foldl (fun w cb => cb.on_batch_end batch l w) w

/-- Forwarding method for `on_train_begin`. -/
def CallbackContainer.on_train_begin (c : CallbackContainer ω)
    (logs : Option Logs) (w : ω) : ω :=
  let l := logsOrEmpty logs
  c.callbacks.foldl (fun w cb => cb.on_train_begin l w) w

/-- Forwarding method for `on_train_end`. -/
def CallbackContainer.on_train_end (c : CallbackContainer ω)
    (logs : Option Logs) (w : ω) : ω :=
  let l := logsOrEmpty logs
  c.callbacks.foldl (fun w cb => cb.on_train_end l w) w

/-- An observer that appends its identity to a shared event trace in
every hook, used to observe the dispatch order. -/
def traceCb (i : ℕ) : PyCallback (List ℕ) where
  on_epoch_begin := fun _ _ t => t ++ [i]
  on_epoch_end := fun _ _ t => t ++ [i]
  on_batch_begin := fun _ _ t => t ++ [i]
  on_batch_end := fun _ _ t => t ++ [i]
  on_train_begin := fun _ t => t ++ [i]
  on_train_end := fun _ t => t ++ [i]

/-- Python exceptions raised by the `History` hooks. -/
inductive PyErr where
  | keyError : String → PyErr
  | zeroDivisionError : PyErr
deriving DecidableEq

/-- State of the `History` callback.  The `_history` dict is modelled by
its two lists and `_epoch_metrics` by its single `loss` entry. -/
structure History where
  verbose : ℤ
  history_loss : List ℚ
  history_lr : List ℚ
  start_time : ℚ
  epoch_loss : ℚ
  epoch_metrics_loss : ℚ
  samples_seen : ℚ
  train_run_cost : ℚ
  train_reader_cost : ℚ

/-- `History.on_train_begin`: reset the history record, read the
required key with `logs["start_time"]` (a `KeyError` when absent) and
zero the running loss. -/
def History.on_train_begin (logs : Logs) (h : History) : Except PyErr History :=
  match lookupLog logs "start_time" with
  | none => .error (.keyError "start_time")
  | some st =>
    .ok { h with history_loss := [], history_lr := [], start_time := st,
                 epoch_loss := 0 }

/-- `History.on_epoch_begin`: reset the per-epoch accumulators. -/
def History.on_epoch_begin (_epoch : ℤ) (_logs : Logs) (h : History) : History :=
  { h with epoch_metrics_loss := 0, samples_seen := 0,
           train_run_cost := 0, train_reader_cost := 0 }

/-- `History.on_epoch_end`: record the running epoch loss into the
epoch metrics (the rest of the method only formats a log line). -/
def History.on_epoch_end (_epoch : ℤ) (_logs : Logs) (h : History) : History :=
  { h with epoch_metrics_loss := h.epoch_loss }

/-- `History.on_batch_end`: read the six required keys by subscripting
(a `KeyError` when any is absent, in reading order), update the running
weighted-average loss and the sample count, then read the two optional
telemetry keys defensively with `get`; the `ips` division raises
`ZeroDivisionError` when `train_run_cost` is present and zero, as does
the running-average update when `samples_seen + batch_size` is zero. -/
def History.on_batch_end (logs : Logs) (h : History) : Except PyErr History :=
  match lookupLog logs "batch_size" with
  | none => .error (.keyError "batch_size")
  | some batch_size =>
  match lookupLog logs "loss" with
  | none => .error (.keyError "loss")
  | some batch_loss =>
  match lookupLog logs "epoch" with
  | none => .error (.keyError "epoch")
  | some _ =>
  match lookupLog logs "max_epochs" with
  | none => .error (.keyError "max_epochs")
  | some _ =>
  match lookupLog logs "steps" with
  | none => .error (.keyError "steps")
  | some _ =>
  match lookupLog logs "lr" with
  | none => .error (.keyError "lr")
  | some _ =>
  if h.samples_seen + batch_size = 0 then .error .zeroDivisionError
  else
    let h1 : History :=
      { h with
        epoch_loss := (h.samples_seen * h.epoch_loss + batch_size * batch_loss)
          / (h.samples_seen + batch_size),
        samples_seen := h.samples_seen + batch_size }
    match lookupLog logs "train_run_cost" with
    | some c => if c = 0 then .error .zeroDivisionError else .ok h1
    | none => .ok h1

/-- A batch-end log record carrying exactly the six required keys. -/
def mkBatchLogs (batch_size loss epoch max_epochs steps lr : ℚ) : Logs :=
  [("batch_size", batch_size), ("loss", loss), ("epoch", epoch),
   ("max_epochs", max_epochs), ("steps", steps), ("lr", lr)]

/-- A sequence of `on_batch_end` calls within one epoch, each carrying a
batch size and a loss. -/
def History.runBatches (h : History) : List (ℚ × ℚ) → Except PyErr History
  | [] => .ok h
  | p :: rest =>
    match History.on_batch_end (mkBatchLogs p.1 p.2 0 0 0 0) h with
    | .error e => .error e
    | .ok h1 => History.runBatches h1 rest

/-- A monitor state used by witness theorems: maximising with the best
value still at plus infinity, so the improvement test rejects any
candidate. -/
def esW : EarlyStopping ℤ where
  early_stopping_metric := "m"
  is_maximize := true
  tol := 0
  patience := 1
  best_epoch := 0
  stopped_epoch := 0
  best_weights := none
  best_loss := EFloat.posInf
  wait := 0

/-- A recorder state used by witness theorems. -/
def historyW : History where
  verbose := 0
  history_loss := []
  history_lr := []
  start_time := 0
  epoch_loss := 0
  epoch_metrics_loss := 0
  samples_seen := 0
  train_run_cost := 0
  train_reader_cost := 0

/-- Unfolding of `on_epoch_endC` when the metric is present: the branch
condition is exactly the improvement predicate. -/
lemma on_epoch_endC_some (copyFn : W → Option W) (es : EarlyStopping W)
    (tr : Trainer W) (e : ℤ) (l : Logs) (v : ℚ)
    (hv : lookupLog l es.early_stopping_metric = some v) :
    EarlyStopping.on_epoch_endC copyFn es tr e l =
      if improvedB es.is_maximize es.tol es.best_loss v then
        (match copyFn tr.network with
         | none => ⟨true, es, tr⟩
         | some w =>
           ⟨false,
             { es with best_weights := some w, best_loss := EFloat.fin v,
                       best_epoch := e, wait := 0 }, tr⟩)
      else if es.patience ≤ es.wait + 1 then
        ⟨false, { es with wait := es.wait + 1, stopped_epoch := e },
          { tr with stop_training := true }⟩
      else ⟨false, { es with wait := es.wait + 1 }, tr⟩ := by
  unfold EarlyStopping.on_epoch_endC improvedB
  rw [hv]

/-- Unfolding of `on_epoch_end` when the metric is present. -/
lemma on_epoch_end_some (es : EarlyStopping W) (tr : Trainer W) (e : ℤ)
    (l : Logs) (v : ℚ)
    (hv : lookupLog l es.early_stopping_metric = some v) :
    EarlyStopping.on_epoch_end es tr e l =
      if improvedB es.is_maximize es.tol es.best_loss v then
        ({ es with best_weights := some tr.network, best_loss := EFloat.fin v,
                   best_epoch := e, wait := 0 }, tr)
      else if es.patience ≤ es.wait + 1 then
        ({ es with wait := es.wait + 1, stopped_epoch := e },
          { tr with stop_training := true })
      else ({ es with wait := es.wait + 1 }, tr) := by
  unfold EarlyStopping.on_epoch_end
  rw [on_epoch_endC_some (fun w => some w) es tr e l v hv]
  by_cases h : improvedB es.is_maximize es.tol es.best_loss v = true
  · simp [h]
  · simp only [h, if_false, Bool.false_eq_true]
    split <;> rfl

/-- Main invariant of a run of `on_epoch_end` calls in which the metric
is present in every call: the configuration fields are unchanged, the
best value follows the tolerance-gated fold, the wait counter follows
the improvement flags, and any finite best value was reported at the
stored best epoch. -/
lemma runCalls_spec (calls : List (ℤ × Logs)) :
    ∀ (vs : List ℚ) (es : EarlyStopping W) (tr : Trainer W),
      calls.map (fun c => lookupLog c.2 es.early_stopping_metric) = vs.map some →
      ((EarlyStopping.runCalls (es, tr) calls).1.early_stopping_metric
          = es.early_stopping_metric ∧
        (EarlyStopping.runCalls (es, tr) calls).1.is_maximize = es.is_maximize ∧
        (EarlyStopping.runCalls (es, tr) calls).1.tol = es.tol ∧
        (EarlyStopping.runCalls (es, tr) calls).1.patience = es.patience) ∧
      (EarlyStopping.runCalls (es, tr) calls).1.best_loss
          = vs.foldl (gatedStep es.is_maximize es.tol) es.best_loss ∧
      (EarlyStopping.runCalls (es, tr) calls).1.wait
          = waitAfter es.wait (improvedFlags es.is_maximize es.tol es.best_loss vs) ∧
      (∀ v : ℚ, (EarlyStopping.runCalls (es, tr) calls).1.best_loss = EFloat.fin v →
        (∃ c ∈ calls, c.1 = (EarlyStopping.runCalls (es, tr) calls).1.best_epoch ∧
            lookupLog c.2 es.early_stopping_metric = some v) ∨
        (es.best_loss = EFloat.fin v ∧
          (EarlyStopping.runCalls (es, tr) calls).1.best_epoch = es.best_epoch)) := by
  induction calls with
  | nil =>
    intro vs es tr hmap
    have hvs : vs = [] := by
      cases vs with
      | nil => rfl
      | cons a t => simp at hmap
    subst hvs
    refine ⟨⟨rfl, rfl, rfl, rfl⟩, rfl, rfl, ?_⟩
    intro v hv
    exact Or.inr ⟨hv, rfl⟩
  | cons c rest ih =>
    intro vs es tr hmap
    obtain ⟨e, l⟩ := c
    cases vs with
    | nil => simp at hmap
    | cons v vs' =>
      simp only [List.map_cons, List.cons.injEq] at hmap
      obtain ⟨hv, hrest⟩ := hmap
      have hstep := on_epoch_end_some es tr e l v hv
      have hrun : EarlyStopping.runCalls (es, tr) ((e, l) :: rest)
          = EarlyStopping.runCalls (EarlyStopping.on_epoch_end es tr e l) rest := by
        rfl
      by_cases himp : improvedB es.is_maximize es.tol es.best_loss v = true
      · -- accepted improvement at the head call
        rw [if_pos himp] at hstep
        set es1 : EarlyStopping W :=
          { es with best_weights := some tr.network, best_loss := EFloat.fin v,
                    best_epoch := e, wait := 0 } with hes1
        have hmap1 : rest.map (fun c => lookupLog c.2 es1.early_stopping_metric)
            = vs'.map some := hrest
        obtain ⟨⟨ihm, ihmx, ihtol, ihpat⟩, ihbest, ihwait, ihmem⟩ :=
          ih vs' es1 tr hmap1
        rw [hrun, hstep]
        refine ⟨⟨ihm, ihmx, ihtol, ihpat⟩, ?_, ?_, ?_⟩
        · rw [ihbest]
          simp only [List.foldl_cons]
          have : gatedStep es.is_maximize es.tol es.best_loss v = EFloat.fin v := by
            unfold gatedStep; rw [if_pos himp]
          rw [this]
        · rw [ihwait]
          simp only [improvedFlags, himp, waitAfter, List.foldl_cons, if_true]
          have : gatedStep es.is_maximize es.tol es.best_loss v = EFloat.fin v := by
            unfold gatedStep; rw [if_pos himp]
          rw [this]
        · intro v0 hbl
          rcases ihmem v0 hbl with ⟨c0, hc0, hcep, hcv⟩ | ⟨hfin, hep⟩
          · exact Or.inl ⟨c0, List.mem_cons_of_mem _ hc0, hcep, hcv⟩
          · -- best value is the head value
            have hv0 : v0 = v := by
              have : EFloat.fin v = EFloat.fin v0 := hfin
              injection this.symm
            refine Or.inl ⟨(e, l), List.mem_cons_self _ _, ?_, ?_⟩
            · rw [hep]
            · rw [hv0]; exact hv
      · -- no accepted improvement at the head call
        rw [if_neg himp] at hstep
        have hflag : improvedB es.is_maximize es.tol es.best_loss v = false := by
          exact Bool.not_eq_true _ ▸ (by simpa using himp)
        have hgs : gatedStep es.is_maximize es.tol es.best_loss v = es.best_loss := by
          unfold gatedStep; rw [if_neg himp]
        -- the two sub-branches of the patience test agree on all tracked fields
        by_cases hpat : es.patience ≤ es.wait + 1
        · rw [if_pos hpat] at hstep
          set es1 : EarlyStopping W :=
            { es with wait := es.wait + 1, stopped_epoch := e } with hes1
          obtain ⟨⟨ihm, ihmx, ihtol, ihpat'⟩, ihbest, ihwait, ihmem⟩ :=
            ih vs' es1 { tr with stop_training := true } hrest
          rw [hrun, hstep]
          refine ⟨⟨ihm, ihmx, ihtol, ihpat'⟩, ?_, ?_, ?_⟩
          · rw [ihbest]; simp only [List.foldl_cons, hgs]
          · rw [ihwait]
            simp only [improvedFlags, hflag, waitAfter, List.foldl_cons,
              Bool.false_eq_true, if_false, hgs]
          · intro v0 hbl
            rcases ihmem v0 hbl with ⟨c0, hc0, hcep, hcv⟩ | ⟨hfin, hep⟩
            · exact Or.inl ⟨c0, List.mem_cons_of_mem _ hc0, hcep, hcv⟩
            · exact Or.inr ⟨hfin, hep⟩
        · rw [if_neg hpat] at hstep
          set es1 : EarlyStopping W := { es with wait := es.wait + 1 } with hes1
          obtain ⟨⟨ihm, ihmx, ihtol, ihpat'⟩, ihbest, ihwait, ihmem⟩ :=
            ih vs' es1 tr hrest
          rw [hrun, hstep]
          refine ⟨⟨ihm, ihmx, ihtol, ihpat'⟩, ?_, ?_, ?_⟩
          · rw [ihbest]; simp only [List.foldl_cons, hgs]
          · rw [ihwait]
            simp only [improvedFlags, hflag, waitAfter, List.foldl_cons,
              Bool.false_eq_true, if_false, hgs]
          · intro v0 hbl
            rcases ihmem v0 hbl with ⟨c0, hc0, hcep, hcv⟩ | ⟨hfin, hep⟩
            · exact Or.inl ⟨c0, List.mem_cons_of_mem _ hc0, hcep, hcv⟩
            · exact Or.inr ⟨hfin, hep⟩

/-- Unfolding of `on_epoch_endC` when the metric is absent from the logs:
the call returns immediately with nothing changed and nothing raised. -/
lemma on_epoch_endC_none (copyFn : W → Option W) (es : EarlyStopping W)
    (tr : Trainer W) (e : ℤ) (l : Logs)
    (hl : lookupLog l es.early_stopping_metric = none) :
    EarlyStopping.on_epoch_endC copyFn es tr e l = ⟨false, es, tr⟩ := by
  unfold EarlyStopping.on_epoch_endC
  rw [hl]

/-- The initial best value is the direction-dependent infinity. -/
lemma init_best_loss (m : String) (mx : Bool) (t : ℚ) (p : ℤ) :
    (EarlyStopping.init m mx t p : EarlyStopping W).best_loss
      = (if mx then EFloat.negInf else EFloat.posInf) := by
  cases mx <;> rfl

/-- A candidate within tolerance of a finite current best, in the
configured direction, is not an accepted improvement. -/
lemma improvedB_false_within_tol (is_maximize : Bool) (tol : ℚ) (q v : ℚ)
    (hmax : is_maximize = true → v - q ≤ tol)
    (hmin : is_maximize = false → q - v ≤ tol) :
    improvedB is_maximize tol (EFloat.fin q) v = false := by
  cases is_maximize
  · have h := hmin rfl
    simp only [improvedB, EFloat.subQ, EFloat.neg, EFloat.gtQ, Bool.false_and,
      Bool.not_false, Bool.true_and, Bool.false_or, decide_eq_false_iff_not, not_lt]
    linarith
  · have h := hmax rfl
    simp only [improvedB, EFloat.subQ, EFloat.neg, EFloat.gtQ, Bool.true_and,
      Bool.not_true, Bool.false_and, Bool.or_false, decide_eq_false_iff_not, not_lt]
    linarith

/-- The wait counter computed by folding from zero is the length of the
trailing run of non-improving flags. -/
lemma waitAfter_zero_eq (flags : List Bool) :
    waitAfter 0 flags = (consecSinceImprove flags : ℤ) := by
  induction flags using List.reverseRecOn with
  | nil => rfl
  | append_singleton xs x ih =>
    unfold waitAfter consecSinceImprove at *
    rw [List.foldl_append, List.reverse_append]
    simp only [List.foldl_cons, List.foldl_nil, List.reverse_cons, List.reverse_nil,
      List.nil_append, List.singleton_append, List.takeWhile_cons]
    cases x
    · simp only [Bool.not_false, if_true, List.length_cons, if_pos]
      push_cast
      rw [ih]
    · simp only [Bool.not_true, List.length_nil, if_neg, Nat.cast_zero]
      rfl

/-- A single `on_epoch_end` call never clears the trainer's stop flag. -/
lemma step_stop_mono (es : EarlyStopping W) (tr : Trainer W) (e : ℤ) (l : Logs)
    (h : tr.stop_training = true) :
    (EarlyStopping.on_epoch_end es tr e l).2.stop_training = true := by
  cases hl : lookupLog l es.early_stopping_metric with
  | none =>
    unfold EarlyStopping.on_epoch_end
    rw [on_epoch_endC_none _ es tr e l hl]
    exact h
  | some v =>
    rw [on_epoch_end_some es tr e l v hl]
    by_cases himp : improvedB es.is_maximize es.tol es.best_loss v = true
    · rw [if_pos himp]; exact h
    · rw [if_neg himp]
      by_cases hpat : es.patience ≤ es.wait + 1
      · rw [if_pos hpat]
      · rw [if_neg hpat]; exact h

/-- A whole run of `on_epoch_end` calls never clears the stop flag. -/
lemma runCalls_stop_mono (calls : List (ℤ × Logs)) :
    ∀ (st : EarlyStopping W × Trainer W), st.2.stop_training = true →
      (EarlyStopping.runCalls st calls).2.stop_training = true := by
  induction calls with
  | nil => intro st h; exact h
  | cons c rest ih =>
    intro st h
    exact ih (EarlyStopping.on_epoch_end st.1 st.2 c.1 c.2)
      (step_stop_mono st.1 st.2 c.1 c.2 h)

/-- The `on_train_end` hook leaves the stop flag exactly as it was. -/
lemma on_train_end_stop (es : EarlyStopping W) (tr : Trainer W) :
    (EarlyStopping.on_train_end es tr).stop_training = tr.stop_training := by
  unfold EarlyStopping.on_train_end
  cases es.best_weights <;> rfl

/-- C1: over any sequence of `on_epoch_end` calls in which the configured
metric is present with values `vs`, the best value after the run equals
the tolerance-gated extremum of `vs` starting from the direction-dependent
infinity; and a value within tolerance of the current best in the
configured direction never becomes the new best. -/
theorem c1_best_is_tolerance_gated_extremum (W : Type) (metric : String)
    (is_maximize : Bool) (tol : ℚ) (patience : ℤ) (tr : Trainer W)
    (calls : List (ℤ × Logs)) (vs : List ℚ)
    (hmap : calls.map (fun c => lookupLog c.2 metric) = vs.map some) :
    (EarlyStopping.runCalls
        (EarlyStopping.init metric is_maximize tol patience, tr) calls).1.best_loss
      = gatedBest is_maximize tol vs ∧
    (∀ (es : EarlyStopping W) (tr' : Trainer W) (e : ℤ) (l : Logs) (v q : ℚ),
      lookupLog l es.early_stopping_metric = some v →
      es.best_loss = EFloat.fin q →
      (es.is_maximize = true → v - q ≤ es.tol) →
      (es.is_maximize = false → q - v ≤ es.tol) →
      (EarlyStopping.on_epoch_end es tr' e l).1.best_loss = es.best_loss) := by
  constructor
  · obtain ⟨_, hbest, _, _⟩ :=
      runCalls_spec calls vs (EarlyStopping.init metric is_maximize tol patience) tr hmap
    rw [hbest, gatedBest, init_best_loss]
    rfl
  · intro es tr' e l v q hv hfin hmax hmin
    rw [on_epoch_end_some es tr' e l v hv]
    have hfalse : improvedB es.is_maximize es.tol es.best_loss v = false := by
      rw [hfin]
      exact improvedB_false_within_tol es.is_maximize es.tol q v hmax hmin
    rw [if_neg (by simp [hfalse])]
    by_cases hpat : es.patience ≤ es.wait + 1
    · rw [if_pos hpat]
    · rw [if_neg hpat]

/-- C2: a call whose metric is present and which is not an accepted
improvement increments the wait counter, and when the incremented counter
has reached the patience the call sets the trainer's stop flag and records
the stopped epoch; once the stop flag is set, no later `on_epoch_end` or
`on_train_end` call of the monitor ever clears it. -/
theorem c2_patience_trigger_and_stop_monotone (W : Type) (es : EarlyStopping W)
    (tr : Trainer W) (e : ℤ) (l : Logs) :
    (∀ v : ℚ, lookupLog l es.early_stopping_metric = some v →
      improvedB es.is_maximize es.tol es.best_loss v = false →
      ((EarlyStopping.on_epoch_end es tr e l).1.wait = es.wait + 1 ∧
        (es.patience ≤ es.wait + 1 →
          (EarlyStopping.on_epoch_end es tr e l).2.stop_training = true ∧
          (EarlyStopping.on_epoch_end es tr e l).1.stopped_epoch = e))) ∧
    (tr.stop_training = true →
      (EarlyStopping.on_epoch_end es tr e l).2.stop_training = true ∧
      (EarlyStopping.on_train_end es tr).stop_training = true ∧
      ∀ calls : List (ℤ × Logs),
        (EarlyStopping.runCalls (es, tr) calls).2.stop_training = true) := by
  constructor
  · intro v hv hfalse
    rw [on_epoch_end_some es tr e l v hv, if_neg (by simp [hfalse])]
    by_cases hpat : es.patience ≤ es.wait + 1
    · rw [if_pos hpat]
      exact ⟨rfl, fun _ => ⟨rfl, rfl⟩⟩
    · rw [if_neg hpat]
      exact ⟨rfl, fun h => absurd h hpat⟩
  · intro hstop
    refine ⟨step_stop_mono es tr e l hstop, ?_, fun calls => runCalls_stop_mono calls (es, tr) hstop⟩
    rw [on_train_end_stop]
    exact hstop

/-- C3: over any run from a freshly initialised monitor in which the
metric is present in every call, the wait counter equals the number of
consecutive calls since the last accepted improvement, and any finite
best value was reported, at the stored best epoch, by one of the calls. -/
theorem c3_wait_count_and_best_epoch_invariant (W : Type) (metric : String)
    (is_maximize : Bool) (tol : ℚ) (patience : ℤ) (tr : Trainer W)
    (calls : List (ℤ × Logs)) (vs : List ℚ)
    (hmap : calls.map (fun c => lookupLog c.2 metric) = vs.map some) :
    (EarlyStopping.runCalls
        (EarlyStopping.init metric is_maximize tol patience, tr) calls).1.wait
      = (consecSinceImprove (improvedFlags is_maximize tol
          (if is_maximize then EFloat.negInf else EFloat.posInf) vs) : ℤ) ∧
    (∀ v : ℚ,
      (EarlyStopping.runCalls
          (EarlyStopping.init metric is_maximize tol patience, tr) calls).1.best_loss
        = EFloat.fin v →
      ∃ c ∈ calls,
        c.1 = (EarlyStopping.runCalls
            (EarlyStopping.init metric is_maximize tol patience, tr) calls).1.best_epoch ∧
        lookupLog c.2 metric = some v) := by
  obtain ⟨_, _, hwait, hmem⟩ :=
    runCalls_spec calls vs (EarlyStopping.init metric is_maximize tol patience) tr hmap
  constructor
  · rw [hwait, init_best_loss]
    exact waitAfter_zero_eq _
  · intro v hv
    rcases hmem v hv with h | ⟨hfin, _⟩
    · exact h
    · rw [init_best_loss] at hfin
      cases is_maximize <;> simp at hfin

/-- C4: when the configured metric is absent from the log record, the
call returns without error and leaves the monitor state and the trainer
entirely unchanged, for any deep-copy operation. -/
theorem c4_missing_metric_is_noop (W : Type) (copyFn : W → Option W)
    (es : EarlyStopping W) (tr : Trainer W) (e : ℤ) (l : Logs)
    (hl : lookupLog l es.early_stopping_metric = none) :
    EarlyStopping.on_epoch_endC copyFn es tr e l = ⟨false, es, tr⟩ ∧
    EarlyStopping.on_epoch_end es tr e l = (es, tr) := by
  refine ⟨on_epoch_endC_none copyFn es tr e l hl, ?_⟩
  unfold EarlyStopping.on_epoch_end
  rw [on_epoch_endC_none _ es tr e l hl]

/-- C5: `on_train_end` writes the monitor's best epoch and best value
into the trainer fields unconditionally, overwrites the live network
state with the stored snapshot whenever one exists, and leaves the
live network state unchanged when no snapshot exists. -/
theorem c5_train_end_restores_best (W : Type) (es : EarlyStopping W) (tr : Trainer W) :
    (EarlyStopping.on_train_end es tr).best_epoch = es.best_epoch ∧
    (EarlyStopping.on_train_end es tr).best_cost = es.best_loss ∧
    (∀ w : W, es.best_weights = some w →
      (EarlyStopping.on_train_end es tr).network = w) ∧
    (es.best_weights = none → (EarlyStopping.on_train_end es tr).network = tr.network) := by
  unfold EarlyStopping.on_train_end
  cases hw : es.best_weights with
  | none =>
    exact ⟨rfl, rfl, fun w h => by simp at h, fun _ => rfl⟩
  | some w0 =>
    refine ⟨rfl, rfl, fun w h => ?_, fun h => by simp at h⟩
    have : w0 = w := by injection h
    rw [this]

/-- C7: the snapshot is taken copy-then-assign: when the deep copy of
the trainer's network state fails during an improving call, the
exception propagates and the monitor and trainer state, in particular
the previously stored snapshot, are left exactly as they were. -/
theorem c7_failed_copy_leaves_snapshot_unchanged (W : Type) (copyFn : W → Option W)
    (es : EarlyStopping W) (tr : Trainer W) (e : ℤ) (l : Logs) (v : ℚ)
    (hv : lookupLog l es.early_stopping_metric = some v)
    (himp : improvedB es.is_maximize es.tol es.best_loss v = true)
    (hcopy : copyFn tr.network = none) :
    EarlyStopping.on_epoch_endC copyFn es tr e l = ⟨true, es, tr⟩ := by
  rw [on_epoch_endC_some copyFn es tr e l v hv, if_pos himp, hcopy]

/-- Improvement test against a finite best value when minimising. -/
lemma improvedB_min_fin (tol q v : ℚ) :
    improvedB false tol (EFloat.fin q) v = decide (tol < q - v) := by
  simp only [improvedB, EFloat.subQ, EFloat.neg, EFloat.gtQ, Bool.false_and,
    Bool.not_false, Bool.true_and, Bool.false_or]
  rw [show -(v - q) = q - v from by ring]

/-- Improvement test against a finite best value when maximising. -/
lemma improvedB_max_fin (tol q v : ℚ) :
    improvedB true tol (EFloat.fin q) v = decide (tol < v - q) := by
  simp only [improvedB, EFloat.subQ, EFloat.neg, EFloat.gtQ, Bool.true_and,
    Bool.not_true, Bool.false_and, Bool.or_false]

/-- C8: in scenario A the best value becomes 1.0 at epoch 0 and persists,
the wait counter reaches 2 at epoch 2, where the stop is triggered with
best epoch 0; in scenario B epoch 1 is within tolerance (wait 1), epoch 2
is an accepted improvement resetting the wait with best 0.52, and epoch 3
improves again to best 0.60. -/
theorem c8_concrete_scenarios :
    ((EarlyStopping.runCalls (esA, trainer0) (callsA.take 1)).1.best_loss
        = EFloat.fin 1 ∧
      (EarlyStopping.runCalls (esA, trainer0) (callsA.take 1)).1.best_epoch = 0 ∧
      (EarlyStopping.runCalls (esA, trainer0) (callsA.take 3)).1.best_loss
        = EFloat.fin 1 ∧
      (EarlyStopping.runCalls (esA, trainer0) (callsA.take 3)).1.wait = 2 ∧
      (EarlyStopping.runCalls (esA, trainer0) (callsA.take 3)).2.stop_training = true ∧
      (EarlyStopping.runCalls (esA, trainer0) (callsA.take 3)).1.stopped_epoch = 2 ∧
      (EarlyStopping.runCalls (esA, trainer0) (callsA.take 3)).1.best_epoch = 0 ∧
      (EarlyStopping.runCalls (esA, trainer0) callsA).1.best_loss = EFloat.fin 1 ∧
      (EarlyStopping.runCalls (esA, trainer0) callsA).1.best_epoch = 0 ∧
      (EarlyStopping.runCalls (esA, trainer0) callsA).2.stop_training = true) ∧
    ((EarlyStopping.runCalls (esB, trainer0) (callsB.take 2)).1.best_loss
        = EFloat.fin (1/2) ∧
      (EarlyStopping.runCalls (esB, trainer0) (callsB.take 2)).1.wait = 1 ∧
      (EarlyStopping.runCalls (esB, trainer0) (callsB.take 3)).1.best_loss
        = EFloat.fin (13/25) ∧
      (EarlyStopping.runCalls (esB, trainer0) (callsB.take 3)).1.wait = 0 ∧
      (EarlyStopping.runCalls (esB, trainer0) (callsB.take 3)).1.best_epoch = 2 ∧
      (EarlyStopping.runCalls (esB, trainer0) callsB).1.best_loss = EFloat.fin (3/5) ∧
      (EarlyStopping.runCalls (esB, trainer0) callsB).1.best_epoch = 3 ∧
      (EarlyStopping.runCalls (esB, trainer0) callsB).1.wait = 0) := by
  have sA1 : EarlyStopping.on_epoch_end esA trainer0 0 [("loss", 1)]
      = (esA1, trainer0) := by
    rw [on_epoch_end_some esA trainer0 0 [("loss", 1)] 1 rfl,
      if_pos (show improvedB esA.is_maximize esA.tol esA.best_loss 1 = true from rfl)]
    rfl
  have himpA2 : improvedB esA1.is_maximize esA1.tol esA1.best_loss (6/5) = false := by
    show improvedB false 0 (EFloat.fin 1) (6/5) = false
    rw [improvedB_min_fin]
    norm_num [decide_eq_false_iff_not]
  have sA2 : EarlyStopping.on_epoch_end esA1 trainer0 1 [("loss", 6/5)]
      = (esA2, trainer0) := by
    rw [on_epoch_end_some esA1 trainer0 1 [("loss", 6/5)] (6/5) rfl,
      if_neg (by simp [himpA2]), if_neg (show ¬(esA1.patience ≤ esA1.wait + 1) from by decide)]
    rfl
  have himpA3 : improvedB esA2.is_maximize esA2.tol esA2.best_loss (13/10) = false := by
    show improvedB false 0 (EFloat.fin 1) (13/10) = false
    rw [improvedB_min_fin]
    norm_num [decide_eq_false_iff_not]
  have sA3 : EarlyStopping.on_epoch_end esA2 trainer0 2 [("loss", 13/10)]
      = (esA3, trA) := by
    rw [on_epoch_end_some esA2 trainer0 2 [("loss", 13/10)] (13/10) rfl,
      if_neg (by simp [himpA3]), if_pos (show esA2.patience ≤ esA2.wait + 1 from by decide)]
    rfl
  have himpA4 : improvedB esA3.is_maximize esA3.tol esA3.best_loss (5/4) = false := by
    show improvedB false 0 (EFloat.fin 1) (5/4) = false
    rw [improvedB_min_fin]
    norm_num [decide_eq_false_iff_not]
  have sA4 : EarlyStopping.on_epoch_end esA3 trA 3 [("loss", 5/4)]
      = (esA4, trA) := by
    rw [on_epoch_end_some esA3 trA 3 [("loss", 5/4)] (5/4) rfl,
      if_neg (by simp [himpA4]), if_pos (show esA3.patience ≤ esA3.wait + 1 from by decide)]
    rfl
  have himpA5 : improvedB esA4.is_maximize esA4.tol esA4.best_loss (7/5) = false := by
    show improvedB false 0 (EFloat.fin 1) (7/5) = false
    rw [improvedB_min_fin]
    norm_num [decide_eq_false_iff_not]
  have sA5 : EarlyStopping.on_epoch_end esA4 trA 4 [("loss", 7/5)]
      = (esA5, trA) := by
    rw [on_epoch_end_some esA4 trA 4 [("loss", 7/5)] (7/5) rfl,
      if_neg (by simp [himpA5]), if_pos (show esA4.patience ≤ esA4.wait + 1 from by decide)]
    rfl
  have hA1 : EarlyStopping.runCalls (esA, trainer0) (callsA.take 1) = (esA1, trainer0) := sA1
  have hA3 : EarlyStopping.runCalls (esA, trainer0) (callsA.take 3) = (esA3, trA) := by
    show EarlyStopping.runCalls (EarlyStopping.on_epoch_end esA trainer0 0 [("loss", 1)])
      [(1, [("loss", 6/5)]), (2, [("loss", 13/10)])] = (esA3, trA)
    rw [sA1]
    show EarlyStopping.runCalls (EarlyStopping.on_epoch_end esA1 trainer0 1 [("loss", 6/5)])
      [(2, [("loss", 13/10)])] = (esA3, trA)
    rw [sA2]
    show EarlyStopping.runCalls (EarlyStopping.on_epoch_end esA2 trainer0 2 [("loss", 13/10)])
      [] = (esA3, trA)
    rw [sA3]
    rfl
  have hA5 : EarlyStopping.runCalls (esA, trainer0) callsA = (esA5, trA) := by
    show EarlyStopping.runCalls (EarlyStopping.on_epoch_end esA trainer0 0 [("loss", 1)])
      [(1, [("loss", 6/5)]), (2, [("loss", 13/10)]), (3, [("loss", 5/4)]), (4, [("loss", 7/5)])]
      = (esA5, trA)
    rw [sA1]
    show EarlyStopping.runCalls (EarlyStopping.on_epoch_end esA1 trainer0 1 [("loss", 6/5)])
      [(2, [("loss", 13/10)]), (3, [("loss", 5/4)]), (4, [("loss", 7/5)])] = (esA5, trA)
    rw [sA2]
    show EarlyStopping.runCalls (EarlyStopping.on_epoch_end esA2 trainer0 2 [("loss", 13/10)])
      [(3, [("loss", 5/4)]), (4, [("loss", 7/5)])] = (esA5, trA)
    rw [sA3]
    show EarlyStopping.runCalls (EarlyStopping.on_epoch_end esA3 trA 3 [("loss", 5/4)])
      [(4, [("loss", 7/5)])] = (esA5, trA)
    rw [sA4]
    show EarlyStopping.runCalls (EarlyStopping.on_epoch_end esA4 trA 4 [("loss", 7/5)])
      [] = (esA5, trA)
    rw [sA5]
    rfl
  have sB1 : EarlyStopping.on_epoch_end esB trainer0 0 [("metric", 1/2)]
      = (esB1, trainer0) := by
    rw [on_epoch_end_some esB trainer0 0 [("metric", 1/2)] (1/2) rfl,
      if_pos (show improvedB esB.is_maximize esB.tol esB.best_loss (1/2) = true from rfl)]
    rfl
  have himpB2 : improvedB esB1.is_maximize esB1.tol esB1.best_loss (101/200) = false := by
    show improvedB true (1/100) (EFloat.fin (1/2)) (101/200) = false
    rw [improvedB_max_fin]
    norm_num [decide_eq_false_iff_not]
  have sB2 : EarlyStopping.on_epoch_end esB1 trainer0 1 [("metric", 101/200)]
      = (esB2, trainer0) := by
    rw [on_epoch_end_some esB1 trainer0 1 [("metric", 101/200)] (101/200) rfl,
      if_neg (by simp [himpB2]), if_neg (show ¬(esB1.patience ≤ esB1.wait + 1) from by decide)]
    rfl
  have himpB3 : improvedB esB2.is_maximize esB2.tol esB2.best_loss (13/25) = true := by
    show improvedB true (1/100) (EFloat.fin (1/2)) (13/25) = true
    rw [improvedB_max_fin]
    norm_num [decide_eq_true_eq]
  have sB3 : EarlyStopping.on_epoch_end esB2 trainer0 2 [("metric", 13/25)]
      = (esB3, trainer0) := by
    rw [on_epoch_end_some esB2 trainer0 2 [("metric", 13/25)] (13/25) rfl, if_pos himpB3]
    rfl
  have himpB4 : improvedB esB3.is_maximize esB3.tol esB3.best_loss (3/5) = true := by
    show improvedB true (1/100) (EFloat.fin (13/25)) (3/5) = true
    rw [improvedB_max_fin]
    norm_num [decide_eq_true_eq]
  have sB4 : EarlyStopping.on_epoch_end esB3 trainer0 3 [("metric", 3/5)]
      = (esB4, trainer0) := by
    rw [on_epoch_end_some esB3 trainer0 3 [("metric", 3/5)] (3/5) rfl, if_pos himpB4]
    rfl
  have hB2 : EarlyStopping.runCalls (esB, trainer0) (callsB.take 2) = (esB2, trainer0) := by
    show EarlyStopping.runCalls (EarlyStopping.on_epoch_end esB trainer0 0 [("metric", 1/2)])
      [(1, [("metric", 101/200)])] = (esB2, trainer0)
    rw [sB1]
    show EarlyStopping.runCalls (EarlyStopping.on_epoch_end esB1 trainer0 1 [("metric", 101/200)])
      [] = (esB2, trainer0)
    rw [sB2]
    rfl
  have hB3 : EarlyStopping.runCalls (esB, trainer0) (callsB.take 3) = (esB3, trainer0) := by
    show EarlyStopping.runCalls (EarlyStopping.on_epoch_end esB trainer0 0 [("metric", 1/2)])
      [(1, [("metric", 101/200)]), (2, [("metric", 13/25)])] = (esB3, trainer0)
    rw [sB1]
    show EarlyStopping.runCalls (EarlyStopping.on_epoch_end esB1 trainer0 1 [("metric", 101/200)])
      [(2, [("metric", 13/25)])] = (esB3, trainer0)
    rw [sB2]
    show EarlyStopping.runCalls (EarlyStopping.on_epoch_end esB2 trainer0 2 [("metric", 13/25)])
      [] = (esB3, trainer0)
    rw [sB3]
    rfl
  have hB4 : EarlyStopping.runCalls (esB, trainer0) callsB = (esB4, trainer0) := by
    show EarlyStopping.runCalls (EarlyStopping.on_epoch_end esB trainer0 0 [("metric", 1/2)])
      [(1, [("metric", 101/200)]), (2, [("metric", 13/25)]), (3, [("metric", 3/5)])]
      = (esB4, trainer0)
    rw [sB1]
    show EarlyStopping.runCalls (EarlyStopping.on_epoch_end esB1 trainer0 1 [("metric", 101/200)])
      [(2, [("metric", 13/25)]), (3, [("metric", 3/5)])] = (esB4, trainer0)
    rw [sB2]
    show EarlyStopping.runCalls (EarlyStopping.on_epoch_end esB2 trainer0 2 [("metric", 13/25)])
      [(3, [("metric", 3/5)])] = (esB4, trainer0)
    rw [sB3]
    show EarlyStopping.runCalls (EarlyStopping.on_epoch_end esB3 trainer0 3 [("metric", 3/5)])
      [] = (esB4, trainer0)
    rw [sB4]
    rfl
  rw [hA1, hA3, hA5, hB2, hB3, hB4]
  exact ⟨⟨rfl, rfl, rfl, rfl, rfl, rfl, rfl, rfl, rfl, rfl⟩,
    rfl, rfl, rfl, rfl, rfl, rfl, rfl, rfl⟩

/-- Folding the append-to-trace step over a list of identities appends
exactly that list, in order. -/
lemma foldl_snoc_eq (ids : List ℕ) :
    ∀ t : List ℕ, ids.foldl (fun acc i => acc ++ [i]) t = t ++ ids := by
  induction ids with
  | nil => intro t; simp
  | cons i rest ih =>
    intro t
    rw [List.foldl_cons, ih]
    simp

/-- Dispatching an event over attached trace observers records exactly
the attached identities, in attach order: `on_epoch_begin`. -/
lemma trace_epoch_begin (ids : List ℕ) (e : ℤ) (l : Option Logs) :
    (CallbackContainer.mk (ids.map traceCb)).on_epoch_begin e l [] = ids := by
  show List.foldl (fun w cb => cb.on_epoch_begin e (logsOrEmpty l) w) [] (ids.map traceCb) = ids
  rw [List.foldl_map]
  show ids.foldl (fun acc i => acc ++ [i]) [] = ids
  rw [foldl_snoc_eq]
  rfl

/-- Trace dispatch for `on_epoch_end`. -/
lemma trace_epoch_end (ids : List ℕ) (e : ℤ) (l : Option Logs) :
    (CallbackContainer.mk (ids.map traceCb)).on_epoch_end e l [] = ids := by
  show List.foldl (fun w cb => cb.on_epoch_end e (logsOrEmpty l) w) [] (ids.map traceCb) = ids
  rw [List.foldl_map]
  show ids.foldl (fun acc i => acc ++ [i]) [] = ids
  rw [foldl_snoc_eq]
  rfl

/-- Trace dispatch for `on_batch_begin`. -/
lemma trace_batch_begin (ids : List ℕ) (e : ℤ) (l : Option Logs) :
    (CallbackContainer.mk (ids.map traceCb)).on_batch_begin e l [] = ids := by
  show List.foldl (fun w cb => cb.on_batch_begin e (logsOrEmpty l) w) [] (ids.map traceCb) = ids
  rw [List.foldl_map]
  show ids.foldl (fun acc i => acc ++ [i]) [] = ids
  rw [foldl_snoc_eq]
  rfl

/-- Trace dispatch for `on_batch_end`. -/
lemma trace_batch_end (ids : List ℕ) (e : ℤ) (l : Option Logs) :
    (CallbackContainer.mk (ids.map traceCb)).on_batch_end e l [] = ids := by
  show List.foldl (fun w cb => cb.on_batch_end e (logsOrEmpty l) w) [] (ids.map traceCb) = ids
  rw [List.foldl_map]
  show ids.foldl (fun acc i => acc ++ [i]) [] = ids
  rw [foldl_snoc_eq]
  rfl

/-- Trace dispatch for `on_train_begin`. -/
lemma trace_train_begin (ids : List ℕ) (l : Option Logs) :
    (CallbackContainer.mk (ids.map traceCb)).on_train_begin l [] = ids := by
  show List.foldl (fun w cb => cb.on_train_begin (logsOrEmpty l) w) [] (ids.map traceCb) = ids
  rw [List.foldl_map]
  show ids.foldl (fun acc i => acc ++ [i]) [] = ids
  rw [foldl_snoc_eq]
  rfl

/-- Trace dispatch for `on_train_end`. -/
lemma trace_train_end (ids : List ℕ) (l : Option Logs) :
    (CallbackContainer.mk (ids.map traceCb)).on_train_end l [] = ids := by
  show List.foldl (fun w cb => cb.on_train_end (logsOrEmpty l) w) [] (ids.map traceCb) = ids
  rw [List.foldl_map]
  show ids.foldl (fun acc i => acc ++ [i]) [] = ids
  rw [foldl_snoc_eq]
  rfl

/-- C6: every forwarding method of the container substitutes the empty
record for a missing log, invokes the matching hook on every attached
callback exactly once in attach order (dispatching over trace observers
records exactly the attached identities in order), and with an empty
callback list every forwarding method returns its input unchanged and
raises no error. -/
theorem c6_dispatch_defaulting_order_empty :
    (∀ (ω : Type) (c : CallbackContainer ω) (e : ℤ) (w : ω),
      c.on_epoch_begin e none w = c.on_epoch_begin e (some []) w ∧
      c.on_epoch_end e none w = c.on_epoch_end e (some []) w ∧
      c.on_batch_begin e none w = c.on_batch_begin e (some []) w ∧
      c.on_batch_end e none w = c.on_batch_end e (some []) w ∧
      c.on_train_begin none w = c.on_train_begin (some []) w ∧
      c.on_train_end none w = c.on_train_end (some []) w) ∧
    (∀ (ids : List ℕ) (e : ℤ) (l : Option Logs),
      (CallbackContainer.mk (ids.map traceCb)).on_epoch_begin e l [] = ids ∧
      (CallbackContainer.mk (ids.map traceCb)).on_epoch_end e l [] = ids ∧
      (CallbackContainer.mk (ids.map traceCb)).on_batch_begin e l [] = ids ∧
      (CallbackContainer.mk (ids.map traceCb)).on_batch_end e l [] = ids ∧
      (CallbackContainer.mk (ids.map traceCb)).on_train_begin l [] = ids ∧
      (CallbackContainer.mk (ids.map traceCb)).on_train_end l [] = ids) ∧
    (∀ (ω : Type) (e : ℤ) (l : Option Logs) (w : ω),
      (CallbackContainer.mk ([] : List (PyCallback ω))).on_epoch_begin e l w = w ∧
      (CallbackContainer.mk ([] : List (PyCallback ω))).on_epoch_end e l w = w ∧
      (CallbackContainer.mk ([] : List (PyCallback ω))).on_batch_begin e l w = w ∧
      (CallbackContainer.mk ([] : List (PyCallback ω))).on_batch_end e l w = w ∧
      (CallbackContainer.mk ([] : List (PyCallback ω))).on_train_begin l w = w ∧
      (CallbackContainer.mk ([] : List (PyCallback ω))).on_train_end l w = w) := by
  refine ⟨fun ω c e w => ⟨rfl, rfl, rfl, rfl, rfl, rfl⟩, fun ids e l => ?_,
    fun ω e l w => ⟨rfl, rfl, rfl, rfl, rfl, rfl⟩⟩
  exact ⟨trace_epoch_begin ids e l, trace_epoch_end ids e l, trace_batch_begin ids e l,
    trace_batch_end ids e l, trace_train_begin ids l, trace_train_end ids l⟩

/-- Evaluation of `on_batch_end` on a record with the six required keys
and a nonzero incremented sample count. -/
lemma on_batch_end_mk (b l q1 q2 q3 q4 : ℚ) (h : History)
    (hne : ¬(h.samples_seen + b = 0)) :
    History.on_batch_end (mkBatchLogs b l q1 q2 q3 q4) h =
      .ok { h with
        epoch_loss := (h.samples_seen * h.epoch_loss + b * l) / (h.samples_seen + b),
        samples_seen := h.samples_seen + b } := by
  show (if h.samples_seen + b = 0 then (.error .zeroDivisionError : Except PyErr History)
    else .ok { h with
      epoch_loss := (h.samples_seen * h.epoch_loss + b * l) / (h.samples_seen + b),
      samples_seen := h.samples_seen + b }) = _
  rw [if_neg hne]

/-- Invariant of a batch run: the run succeeds, the sample count is the
accumulated batch-size sum, and sample count times running loss is the
accumulated weighted loss sum. -/
lemma runBatches_spec (pairs : List (ℚ × ℚ)) :
    ∀ h : History, 0 ≤ h.samples_seen → (∀ p ∈ pairs, 0 < p.1) →
      ∃ h2, History.runBatches h pairs = .ok h2 ∧
        h2.samples_seen = h.samples_seen + (pairs.map Prod.fst).sum ∧
        h2.samples_seen * h2.epoch_loss
          = h.samples_seen * h.epoch_loss + (pairs.map (fun p => p.1 * p.2)).sum := by
  induction pairs with
  | nil =>
    intro h hs hpos
    exact ⟨h, rfl, by simp, by simp⟩
  | cons p rest ih =>
    intro h hs hpos
    have hb : 0 < p.1 := hpos p (List.mem_cons_self _ _)
    have hbne : ¬(h.samples_seen + p.1 = 0) := by
      intro h0; linarith
    have hstep := on_batch_end_mk p.1 p.2 0 0 0 0 h hbne
    have hs1 : (0:ℚ) ≤ h.samples_seen + p.1 := by linarith
    obtain ⟨h2, hrun, hsam, hinv⟩ :=
      ih { h with
            epoch_loss := (h.samples_seen * h.epoch_loss + p.1 * p.2)
              / (h.samples_seen + p.1),
            samples_seen := h.samples_seen + p.1 }
        hs1 (fun q hq => hpos q (List.mem_cons_of_mem _ hq))
    have hkey : (h.samples_seen + p.1) *
        ((h.samples_seen * h.epoch_loss + p.1 * p.2) / (h.samples_seen + p.1))
        = h.samples_seen * h.epoch_loss + p.1 * p.2 := by
      rw [mul_comm, div_mul_cancel₀ _ hbne]
    refine ⟨h2, ?_, ?_, ?_⟩
    · show (match History.on_batch_end (mkBatchLogs p.1 p.2 0 0 0 0) h with
        | .error e => (.error e : Except PyErr History)
        | .ok h1 => History.runBatches h1 rest) = .ok h2
      rw [hstep]
      exact hrun
    · rw [hsam]
      simp only [List.map_cons, List.sum_cons]
      ring
    · rw [hinv]
      simp only [List.map_cons, List.sum_cons]
      rw [hkey]
      ring

/-- C9: the sample accumulator is reset at epoch start, and after any
sequence of `on_batch_end` calls with positive batch sizes within the
epoch, the run succeeds, the sample count is the sum of the batch sizes
and (once at least one batch was seen) the stored epoch loss is the
batch-size-weighted average of the batch losses. -/
theorem c9_epoch_loss_weighted_average (e : ℤ) (lg : Logs) (h : History)
    (pairs : List (ℚ × ℚ)) (hpos : ∀ p ∈ pairs, 0 < p.1) :
    (History.on_epoch_begin e lg h).samples_seen = 0 ∧
    ∃ h2, History.runBatches (History.on_epoch_begin e lg h) pairs = .ok h2 ∧
      h2.samples_seen = (pairs.map Prod.fst).sum ∧
      (pairs ≠ [] → h2.epoch_loss
        = (pairs.map (fun p => p.1 * p.2)).sum / (pairs.map Prod.fst).sum) := by
  refine ⟨rfl, ?_⟩
  obtain ⟨h2, hrun, hsam, hinv⟩ :=
    runBatches_spec pairs (History.on_epoch_begin e lg h) (le_refl 0) hpos
  have hsam0 : h2.samples_seen = (pairs.map Prod.fst).sum := by
    rw [hsam]
    show (0:ℚ) + _ = _
    rw [zero_add]
  refine ⟨h2, hrun, hsam0, ?_⟩
  intro hne
  have hS : 0 < (pairs.map Prod.fst).sum := by
    apply List.sum_pos
    · intro x hx
      obtain ⟨q, hq, hqx⟩ := List.mem_map.mp hx
      rw [← hqx]
      exact hpos q hq
    · intro hmapnil
      exact hne (List.map_eq_nil_iff.mp hmapnil)
  have hinv0 : h2.samples_seen * h2.epoch_loss = (pairs.map (fun p => p.1 * p.2)).sum := by
    rw [hinv]
    show (0:ℚ) * _ + _ = _
    rw [zero_mul, zero_add]
  rw [eq_div_iff hS.ne']
  rw [← hsam0, mul_comm]
  exact hinv0

/-- C10: `on_train_begin` raises `KeyError` exactly when `start_time` is
missing; `on_batch_end` raises a `KeyError` whenever any of the six
required keys is missing; and with exactly the six required keys present
(both telemetry keys absent) and a nonzero incremented sample count the
call succeeds with the running-average update. -/
theorem c10_history_key_errors (logs : Logs) (h : History) :
    (lookupLog logs "start_time" = none →
      History.on_train_begin logs h = .error (.keyError "start_time")) ∧
    ((lookupLog logs "batch_size" = none ∨ lookupLog logs "loss" = none ∨
      lookupLog logs "epoch" = none ∨ lookupLog logs "max_epochs" = none ∨
      lookupLog logs "steps" = none ∨ lookupLog logs "lr" = none) →
      ∃ k, (k = "batch_size" ∨ k = "loss" ∨ k = "epoch" ∨ k = "max_epochs" ∨
            k = "steps" ∨ k = "lr") ∧ lookupLog logs k = none ∧
        History.on_batch_end logs h = .error (.keyError k)) ∧
    (∀ b l q1 q2 q3 q4 : ℚ, ¬(h.samples_seen + b = 0) →
      History.on_batch_end (mkBatchLogs b l q1 q2 q3 q4) h
        = .ok { h with
            epoch_loss := (h.samples_seen * h.epoch_loss + b * l)
              / (h.samples_seen + b),
            samples_seen := h.samples_seen + b }) := by
  refine ⟨?_, ?_, fun b l q1 q2 q3 q4 hne => on_batch_end_mk b l q1 q2 q3 q4 h hne⟩
  · intro h0
    unfold History.on_train_begin
    rw [h0]
  · intro hmiss
    by_cases h1 : lookupLog logs "batch_size" = none
    · refine ⟨"batch_size", Or.inl rfl, h1, ?_⟩
      unfold History.on_batch_end
      rw [h1]
    · obtain ⟨v1, hv1⟩ := Option.ne_none_iff_exists'.mp h1
      by_cases h2 : lookupLog logs "loss" = none
      · refine ⟨"loss", Or.inr (Or.inl rfl), h2, ?_⟩
        unfold History.on_batch_end
        rw [hv1, h2]
      · obtain ⟨v2, hv2⟩ := Option.ne_none_iff_exists'.mp h2
        by_cases h3 : lookupLog logs "epoch" = none
        · refine ⟨"epoch", Or.inr (Or.inr (Or.inl rfl)), h3, ?_⟩
          unfold History.on_batch_end
          rw [hv1, hv2, h3]
        · obtain ⟨v3, hv3⟩ := Option.ne_none_iff_exists'.mp h3
          by_cases h4 : lookupLog logs "max_epochs" = none
          · refine ⟨"max_epochs", Or.inr (Or.inr (Or.inr (Or.inl rfl))), h4, ?_⟩
            unfold History.on_batch_end
            rw [hv1, hv2, hv3, h4]
          · obtain ⟨v4, hv4⟩ := Option.ne_none_iff_exists'.mp h4
            by_cases h5 : lookupLog logs "steps" = none
            · refine ⟨"steps", Or.inr (Or.inr (Or.inr (Or.inr (Or.inl rfl)))), h5, ?_⟩
              unfold History.on_batch_end
              rw [hv1, hv2, hv3, hv4, h5]
            · obtain ⟨v5, hv5⟩ := Option.ne_none_iff_exists'.mp h5
              by_cases h6 : lookupLog logs "lr" = none
              · refine ⟨"lr", Or.inr (Or.inr (Or.inr (Or.inr (Or.inr rfl)))), h6, ?_⟩
                unfold History.on_batch_end
                rw [hv1, hv2, hv3, hv4, hv5, h6]
              · exact absurd hmiss (by
                  push_neg
                  exact ⟨h1, h2, h3, h4, h5, h6⟩)

/-- Witness for C1 at a concrete one-call run. -/
theorem c1_best_is_tolerance_gated_extremum_witness :
    ([((0:ℤ), ([("m", (1:ℚ))] : Logs))].map (fun c => lookupLog c.2 "m")
        = [(1:ℚ)].map some) ∧
    (EarlyStopping.runCalls
        (EarlyStopping.init "m" false 0 1, trainer0) [(0, [("m", 1)])]).1.best_loss
      = gatedBest false 0 [1] :=
  ⟨rfl, (c1_best_is_tolerance_gated_extremum ℤ "m" false 0 1 trainer0
    [(0, [("m", 1)])] [1] rfl).1⟩

/-- Witness for C2 at a concrete non-improving call that triggers. -/
theorem c2_patience_trigger_and_stop_monotone_witness :
    lookupLog [("m", (1:ℚ))] esW.early_stopping_metric = some 1 ∧
    improvedB esW.is_maximize esW.tol esW.best_loss 1 = false ∧
    esW.patience ≤ esW.wait + 1 ∧
    (EarlyStopping.on_epoch_end esW trainer0 5 [("m", 1)]).1.wait = esW.wait + 1 ∧
    (EarlyStopping.on_epoch_end esW trainer0 5 [("m", 1)]).2.stop_training = true ∧
    (EarlyStopping.on_epoch_end esW trainer0 5 [("m", 1)]).1.stopped_epoch = 5 ∧
    (EarlyStopping.on_train_end esW trA).stop_training = true :=
  ⟨rfl, rfl, by decide,
    ((c2_patience_trigger_and_stop_monotone ℤ esW trainer0 5 [("m", 1)]).1 1 rfl rfl).1,
    (((c2_patience_trigger_and_stop_monotone ℤ esW trainer0 5 [("m", 1)]).1 1 rfl rfl).2
      (by decide)).1,
    (((c2_patience_trigger_and_stop_monotone ℤ esW trainer0 5 [("m", 1)]).1 1 rfl rfl).2
      (by decide)).2,
    ((c2_patience_trigger_and_stop_monotone ℤ esW trA 5 [("m", 1)]).2 rfl).2.1⟩

/-- Witness for C3 at a concrete one-call run. -/
theorem c3_wait_count_and_best_epoch_invariant_witness :
    ([((0:ℤ), ([("m", (1:ℚ))] : Logs))].map (fun c => lookupLog c.2 "m")
        = [(1:ℚ)].map some) ∧
    (EarlyStopping.runCalls
        (EarlyStopping.init "m" false 0 1, trainer0) [(0, [("m", 1)])]).1.wait
      = (consecSinceImprove (improvedFlags false 0
          (if false then EFloat.negInf else EFloat.posInf) [1]) : ℤ) :=
  ⟨rfl, (c3_wait_count_and_best_epoch_invariant ℤ "m" false 0 1 trainer0
    [(0, [("m", 1)])] [1] rfl).1⟩

/-- Witness for C4 at a concrete empty log record. -/
theorem c4_missing_metric_is_noop_witness :
    lookupLog [] esW.early_stopping_metric = none ∧
    EarlyStopping.on_epoch_end esW trainer0 0 [] = (esW, trainer0) :=
  ⟨rfl, (c4_missing_metric_is_noop ℤ (fun w => some w) esW trainer0 0 [] rfl).2⟩

/-- Witness for C5 at a concrete monitor state holding a snapshot. -/
theorem c5_train_end_restores_best_witness :
    esA1.best_weights = some 0 ∧
    (EarlyStopping.on_train_end esA1 trainer0).best_epoch = esA1.best_epoch ∧
    (EarlyStopping.on_train_end esA1 trainer0).network = 0 :=
  ⟨rfl, (c5_train_end_restores_best ℤ esA1 trainer0).1,
    (c5_train_end_restores_best ℤ esA1 trainer0).2.2.1 0 rfl⟩

/-- Witness for C7 at a concrete improving call with a failing copy. -/
theorem c7_failed_copy_leaves_snapshot_unchanged_witness :
    lookupLog [("loss", (1:ℚ))] esA.early_stopping_metric = some 1 ∧
    improvedB esA.is_maximize esA.tol esA.best_loss 1 = true ∧
    (fun (_ : ℤ) => (none : Option ℤ)) trainer0.network = none ∧
    EarlyStopping.on_epoch_endC (fun _ => none) esA trainer0 0 [("loss", 1)]
      = ⟨true, esA, trainer0⟩ :=
  ⟨rfl, rfl, rfl,
    c7_failed_copy_leaves_snapshot_unchanged ℤ (fun _ => none) esA trainer0 0
      [("loss", 1)] 1 rfl rfl rfl⟩

/-- Witness for C9 at a concrete one-batch run. -/
theorem c9_epoch_loss_weighted_average_witness :
    (∀ p ∈ [((1:ℚ), (2:ℚ))], 0 < p.1) ∧
    ((History.on_epoch_begin 0 [] historyW).samples_seen = 0 ∧
      ∃ h2, History.runBatches (History.on_epoch_begin 0 [] historyW) [(1, 2)] = .ok h2 ∧
        h2.samples_seen = ([((1:ℚ), (2:ℚ))].map Prod.fst).sum ∧
        ([((1:ℚ), (2:ℚ))] ≠ [] → h2.epoch_loss
          = ([((1:ℚ), (2:ℚ))].map (fun p => p.1 * p.2)).sum
            / ([((1:ℚ), (2:ℚ))].map Prod.fst).sum)) :=
  ⟨by decide, c9_epoch_loss_weighted_average 0 [] historyW [(1, 2)] (by decide)⟩

/-- Witness for C10 at a concrete empty log record. -/
theorem c10_history_key_errors_witness :
    lookupLog [] "start_time" = none ∧
    History.on_train_begin [] historyW = .error (.keyError "start_time") :=
  ⟨rfl, (c10_history_key_errors [] historyW).1 rfl⟩

end PaddleTS
